import Mathlib

/-!
Shallow embedding of the Lertisento contact-form handler
(`api/contact` serverless handler, first variant of the source file,
together with its helper functions `sanitize`, `stripCRLF`,
`escapeText`, `isEmail`, `createTransporter`).

JavaScript strings are modelled as `List Char` at the core level and
wrapped into Lean `String`s.  JavaScript values that may reach a body
field are modelled by `JsVal`.
-/

/-- A JavaScript value as it can appear in a parsed JSON body field. -/
inductive JsVal where
  | undef
  | null
  | bool (b : Bool)
  | num (n : Int)
  | str (s : String)
deriving DecidableEq

/-- The JavaScript whitespace class `\s` (also the set trimmed by
`String.prototype.trim`): ASCII whitespace, NBSP, Unicode space
separators, line/paragraph separators, BOM. -/
def isWS (c : Char) : Bool :=
  c = ' ' || c = '\t' || c = '\n' || c = '\r' ||
  c.val = 11 || c.val = 12 || c.val = 0xa0 || c.val = 0x1680 ||
  (0x2000 ≤ c.val && c.val ≤ 0x200a) ||
  c.val = 0x2028 || c.val = 0x2029 || c.val = 0x202f ||
  c.val = 0x205f || c.val = 0x3000 || c.val = 0xfeff

/-- Source step one of sanitize, the global CRLF-to-LF replacement:
left-to-right, non-overlapping replacement of each CRLF pair by a
single LF. -/
def replCRLF : List Char → List Char
  | [] => []
  | [c] => [c]
  | c :: d :: rest =>
    if c = '\r' && d = '\n' then '\n' :: replCRLF rest
    else c :: replCRLF (d :: rest)

/-- Source step two of sanitize, the global CR-to-LF replacement, on a
single character. -/
def crToLf (c : Char) : Char := if c = '\r' then '\n' else c

/-- Newline normalization used by `sanitize`: CRLF→LF then CR→LF. -/
def normNL (l : List Char) : List Char := (replCRLF l).map crToLf

/-- Leading-whitespace removal (half of `String.prototype.trim`). -/
def dropLead (l : List Char) : List Char := l.dropWhile isWS

/-- Trailing-whitespace removal (other half of `trim`). -/
def dropTrail (l : List Char) : List Char := (l.reverse.dropWhile isWS).reverse

/-- JavaScript string trim. -/
def trimJS (l : List Char) : List Char := dropTrail (dropLead l)

/-- Core of `sanitize(value, maxLen)` on an actual string:
normalize line endings, trim, `slice(0, maxLen)`. -/
def sanitizeL (l : List Char) (maxLen : Nat) : List Char :=
  (trimJS (normNL l)).take maxLen

/-- Source `sanitize(value, maxLen)` restricted to strings. -/
def sanitizeStr (s : String) (maxLen : Nat) : String :=
  ⟨sanitizeL s.data maxLen⟩

/-- Source `sanitize(value, maxLen)`: non-strings become the empty
string. -/
def sanitize (v : JsVal) (maxLen : Nat) : String :=
  match v with
  | .str s => sanitizeStr s maxLen
  | _ => ""

/-- Core of the stripCRLF replacement: each maximal run of CR/LF
characters becomes one space.  The flag records whether the previous
character belonged to such a run. -/
def stripCore (prev : Bool) : List Char → List Char
  | [] => []
  | c :: rest =>
    if c = '\r' || c = '\n' then
      if prev then stripCore true rest else ' ' :: stripCore true rest
    else c :: stripCore false rest

/-- Source `stripCRLF` on a string: collapse CR/LF runs to spaces, then
trim.  (Its `typeof` guard never fires at the call sites in the
handler, which pass sanitized strings.) -/
def stripCRLF (s : String) : String :=
  ⟨trimJS (stripCore false s.data)⟩

/-- Per-character expansion realising the five sequential replace
calls of escapeText (ampersand, less-than, greater-than, double quote,
single quote); the sequential global replaces are equivalent to this
single pass because no later target character occurs in an earlier
replacement string. -/
def escChar (c : Char) : List Char :=
  if c = '&' then "&amp;".data
  else if c = '<' then "&lt;".data
  else if c = '>' then "&gt;".data
  else if c = Char.ofNat 34 then "&quot;".data
  else if c = Char.ofNat 39 then "&#39;".data
  else [c]

/-- Core of `escapeText` over a character list. -/
def escL : List Char → List Char
  | [] => []
  | c :: rest => escChar c ++ escL rest

/-- Source `escapeText` on a string (its `typeof` guard never fires at
the handler call sites). -/
def escapeText (s : String) : String := ⟨escL s.data⟩

/-- Split a list at the first occurrence of `t`, returning the parts
before and after it. -/
def breakAt (t : Char) : List Char → Option (List Char × List Char)
  | [] => none
  | c :: rest =>
    if c = t then some ([], rest)
    else
      match breakAt t rest with
      | none => none
      | some (a, b) => some (c :: a, b)

/-- Character class `[^\s@]` of the email regex. -/
def okEmailChar (c : Char) : Bool := !isWS c && c != '@'

/-- The regex `^[^\s@]+@[^\s@]+\.[^\s@]+$`: a non-empty `@`-free,
whitespace-free local part, one `@`, and a domain of such characters
containing a dot at an interior position. -/
def emailShape (l : List Char) : Bool :=
  match breakAt '@' l with
  | none => false
  | some (loc, dom) =>
    !loc.isEmpty && loc.all okEmailChar && dom.all okEmailChar &&
      ((dom.drop 1).dropLast.contains '.')

/-- Source `isEmail` restricted to strings: the regex is tested against
`value.trim()`. -/
def isEmailStr (s : String) : Bool := emailShape (trimJS s.data)

example : isEmailStr "user@example.com" = true := by decide
example : isEmailStr "not-an-email" = false := by decide
example : isEmailStr "a@b" = false := by decide
example : isEmailStr "@b.com" = false := by decide
example : isEmailStr "a@b.c" = true := by decide
example : isEmailStr " a@b.co " = true := by decide
example : isEmailStr "a@b.com\nBcc: x@evil.com" = false := by decide
example : sanitizeStr "  hi\r\nthere  " 100 = "hi\nthere" := by decide
example : sanitizeStr "a b" 2 = "a " := by decide
example : stripCRLF "a@b.com\r\nBcc: x" = "a@b.com Bcc: x" := by decide
example : escapeText "<a href=\"x\"> & 'q'" =
    "&lt;a href=&quot;x&quot;&gt; &amp; &#39;q&#39;" := by decide

/-!  The handler.  Environment variables are `Option String` (`none` =
unset); JavaScript truthiness of an env value is `some s` with `s`
non-empty.  -/

/-- The environment variables read by the handler. -/
structure Config where
  mailTo : Option String
  mailFrom : Option String
  smtpHost : Option String
  smtpUser : Option String
  smtpPass : Option String
deriving DecidableEq

/-- JavaScript truthiness of an environment value. -/
def truthy : Option String → Bool
  | none => false
  | some s => !s.isEmpty

/-- Reading an environment value with a fallback default, as in the
source expression env value or-else default. -/
def orDefault (o : Option String) (d : String) : String :=
  match o with
  | none => d
  | some s => if s.isEmpty then d else s

/-- The body fields the handler reads from the parsed JSON object. -/
structure RawBody where
  company : JsVal
  name : JsVal
  email : JsVal
  phone : JsVal
  message : JsVal
  gdpr : JsVal
deriving DecidableEq

/-- The empty object `{}` produced for an empty raw body: every field
access yields `undefined`. -/
def RawBody.emptyObj : RawBody :=
  ⟨.undef, .undef, .undef, .undef, .undef, .undef⟩

/-- Outcome of `raw ? JSON.parse(raw) : {}`. -/
inductive BodyParse where
  | emptyRaw
  | malformed
  | ok (b : RawBody)
deriving DecidableEq

/-- An incoming HTTP request, abstracted to what the handler inspects:
the method, the accumulated raw-body length (driving the streaming
64 KiB check), the JSON parse outcome, and the `getIP` result. -/
structure Request where
  method : String
  bodyLen : Nat
  body : BodyParse
  ip : String
deriving DecidableEq

/-- The argument object passed to `transporter.sendMail`.  The field
`fromAddr` and `toAddr` model the source object's `from` and `to`
keys (`from` and `to` are Lean keywords). -/
structure MailMsg where
  fromAddr : String
  toAddr : String
  subject : String
  text : String
  html : String
  replyTo : String
  headers : List (String × String)
deriving DecidableEq

/-- The observable outcome of one handler run: either the bare `204`
for OPTIONS, or a JSON response together with the message handed to
the Mail Dispatcher, if any. -/
inductive HOut where
  | noContent
  | json (status : Nat) (ok : Bool) (error : Option String) (sent : Option MailMsg)
deriving DecidableEq

/-- The handler value safeName = escapeText(stripCRLF(sanitize(body.name, 120))). -/
def safeNameOf (b : RawBody) : String :=
  escapeText (stripCRLF (sanitize b.name 120))

/-- The handler value email = sanitize(body.email, 180). -/
def emailOf (b : RawBody) : String := sanitize b.email 180

/-- The handler value safeEmail = stripCRLF(email). -/
def safeEmailOf (b : RawBody) : String := stripCRLF (emailOf b)

/-- The handler value safePhone = escapeText(stripCRLF(sanitize(body.phone, 60))). -/
def safePhoneOf (b : RawBody) : String :=
  escapeText (stripCRLF (sanitize b.phone 60))

/-- The handler value safeMessage = escapeText(sanitize(body.message, 4000)). -/
def safeMessageOf (b : RawBody) : String :=
  escapeText (sanitize b.message 4000)

/-- The subject line: the fixed Russian title followed by safeName. -/
def subjectOf (b : RawBody) : String :=
  "Заявка с сайта Lertisento — " ++ safeNameOf b

/-- The plain-text body of the outbound mail. -/
def textOf (b : RawBody) (ip : String) : String :=
  "Новая заявка с сайта Lertisento\n\n" ++
  "Имя: " ++ safeNameOf b ++ "\n" ++
  "Email: " ++ safeEmailOf b ++ "\n" ++
  (if safePhoneOf b ≠ "" then "Телефон: " ++ safePhoneOf b ++ "\n" else "") ++
  "IP: " ++ ip ++ "\n\n" ++
  "Сообщение:\n" ++ safeMessageOf b ++ "\n"

/-- The HTML body of the outbound mail. -/
def htmlOf (b : RawBody) (ip : String) : String :=
  "<h2>Новая заявка с сайта Lertisento</h2>" ++
  "<p><b>Имя:</b> " ++ safeNameOf b ++ "</p>" ++
  "<p><b>Email:</b> <a href=\"mailto:" ++ safeEmailOf b ++ "\">" ++
    safeEmailOf b ++ "</a></p>" ++
  (if safePhoneOf b ≠ "" then
    "<p><b>Телефон:</b> " ++ safePhoneOf b ++ "</p>" else "") ++
  "<p><b>IP:</b> " ++ escapeText ip ++ "</p>" ++
  "<hr/>" ++
  "<pre style=\"white-space:pre-wrap; font-family: ui-monospace, SFMono-Regular, Menlo, Monaco, Consolas, 'Liberation Mono', 'Courier New', monospace;\">" ++
  safeMessageOf b ++ "</pre>"

/-- The `requireField` checks performed by `createTransporter` before
it builds the transport: the first falsy credential determines the
thrown message (the thrown error carries `statusCode = 400`). -/
def createTransporterError (cfg : Config) : Option String :=
  if !truthy cfg.smtpHost then some "SMTP_HOST is not configured"
  else if !truthy cfg.smtpUser then some "SMTP_USER is not configured"
  else if !truthy cfg.smtpPass then some "SMTP_PASS is not configured"
  else none

/-- The part of the handler that runs on the parsed body: honeypot,
sanitization, the four `requireField` validations, transporter
creation, and the `sendMail` call.  Each thrown `requireField` error
carries `statusCode = 400`, so the catch block returns status 400 with
the error message verbatim. -/
def processBody (cfg : Config) (b : RawBody) (ip : String) : HOut :=
  if sanitize b.company 200 ≠ "" then .json 200 true none none
  else if (sanitize b.name 120).length < 2 then
    .json 400 false (some "Name is required") none
  else if !isEmailStr (emailOf b) then
    .json 400 false (some "Valid email is required") none
  else if (sanitize b.message 4000).length < 10 then
    .json 400 false (some "Message is too short") none
  else if b.gdpr ≠ JsVal.bool true then
    .json 400 false (some "GDPR consent is required") none
  else
    match createTransporterError cfg with
    | some m => .json 400 false (some m) none
    | none =>
      .json 200 true none (some
        { fromAddr := orDefault cfg.mailFrom "no-reply@example.com"
          toAddr := (cfg.mailTo).getD ""
          subject := subjectOf b
          text := textOf b ip
          html := htmlOf b ip
          replyTo := safeEmailOf b
          headers := [("X-Form-Name", "Lertisento Contact"),
                      ("X-Message-Type", "lead")] })

/-- The handler: CORS/method gate, the `MAIL_TO` requireField (thrown
with `statusCode = 400` before the body is read), the streaming 64 KiB
body-size check (statusCode 413), JSON parsing (an empty raw body
parses to the empty object), then `processBody`. -/
def handler (cfg : Config) (req : Request) : HOut :=
  if req.method = "OPTIONS" then .noContent
  else if req.method ≠ "POST" then
    .json 405 false (some "Method not allowed") none
  else if !truthy cfg.mailTo then
    .json 400 false (some "MAIL_TO is not configured") none
  else if req.bodyLen > 64 * 1024 then
    .json 413 false (some "Payload too large") none
  else
    match req.body with
    | .malformed => .json 400 false (some "Invalid JSON") none
    | .emptyRaw => processBody cfg RawBody.emptyObj req.ip
    | .ok b => processBody cfg b req.ip

/-- A fully configured environment, used for concrete evaluations. -/
def cfgOK : Config :=
  { mailTo := some "dest@example.com"
    mailFrom := some "form@example.com"
    smtpHost := some "smtp.example.com"
    smtpUser := some "u"
    smtpPass := some "p" }

/-- A genuine, valid submission body. -/
def goodBody : RawBody :=
  { company := .str ""
    name := .str "Jo"
    email := .str "jo@example.com"
    phone := .undef
    message := .str "Hello there, need a quote"
    gdpr := .bool true }

/-- A valid POST request carrying `goodBody`. -/
def goodReq : Request :=
  { method := "POST", bodyLen := 120, body := .ok goodBody, ip := "1.2.3.4" }

/-!  Basic lemmas about the string-processing core. -/

/-- Every character emitted by `stripCore` is either a space or a
non-CR/LF input character; in particular CR and LF never survive. -/
theorem stripCore_no_crlf (c : Char) (hc : c = '\r' ∨ c = '\n') :
    ∀ (b : Bool) (l : List Char), c ∉ stripCore b l := by
  intro b l
  induction l generalizing b with
  | nil => simp [stripCore]
  | cons d rest ih =>
    by_cases hd : (d = '\r' || d = '\n') = true
    · cases b with
      | true =>
        have he : stripCore true (d :: rest) = stripCore true rest := by
          simp [stripCore, hd]
        rw [he]; exact ih true
      | false =>
        have he : stripCore false (d :: rest) = ' ' :: stripCore true rest := by
          simp [stripCore, hd]
        rw [he]
        intro hmem
        rcases List.mem_cons.mp hmem with h | h
        · subst h; rcases hc with h | h <;> exact absurd h (by decide)
        · exact ih true h
    · have he : stripCore b (d :: rest) = d :: stripCore false rest := by
        simp [stripCore, hd]
      rw [he]
      intro hmem
      rcases List.mem_cons.mp hmem with h | h
      · subst h; rcases hc with rfl | rfl <;> simp at hd
      · exact ih false h

/-- Membership in a trimmed list implies membership in the original. -/
theorem mem_of_mem_trimJS {c : Char} {l : List Char} (h : c ∈ trimJS l) :
    c ∈ l := by
  have h1 : c ∈ dropLead l := by
    have : trimJS l <+: dropLead l := List.rdropWhile_prefix isWS (dropLead l)
    exact this.sublist.mem h
  exact ((List.dropWhile_suffix isWS).sublist.mem h1)

/-- The output of `stripCRLF` contains no CR and no LF. -/
theorem stripCRLF_no_crlf (s : String) (c : Char) (hc : c = '\r' ∨ c = '\n') :
    c ∉ (stripCRLF s).data := fun h =>
  stripCore_no_crlf c hc false s.data (mem_of_mem_trimJS h)

/-- A CR or LF appearing in an `escChar` expansion must be the original
character (the five replacement strings contain neither). -/
theorem escChar_crlf {a c : Char} (h : c ∈ escChar a)
    (hc : c = '\r' ∨ c = '\n') : c = a := by
  by_cases h1 : a = '&'
  · rcases hc with rfl | rfl <;> (subst h1; exact absurd h (by decide))
  by_cases h2 : a = '<'
  · rcases hc with rfl | rfl <;> (subst h2; exact absurd h (by decide))
  by_cases h3 : a = '>'
  · rcases hc with rfl | rfl <;> (subst h3; exact absurd h (by decide))
  by_cases h4 : a = Char.ofNat 34
  · rcases hc with rfl | rfl <;> (subst h4; exact absurd h (by decide))
  by_cases h5 : a = Char.ofNat 39
  · rcases hc with rfl | rfl <;> (subst h5; exact absurd h (by decide))
  have he : escChar a = [a] := by simp [escChar, h1, h2, h3, h4, h5]
  rw [he] at h
  exact List.mem_singleton.mp h

/-- `escapeText` introduces no CR or LF. -/
theorem escL_no_crlf {l : List Char} {c : Char} (hc : c = '\r' ∨ c = '\n')
    (hl : c ∉ l) : c ∉ escL l := by
  induction l with
  | nil => simp [escL]
  | cons d rest ih =>
    simp only [escL]
    intro hmem
    rcases List.mem_append.mp hmem with h | h
    · have e : c = d := escChar_crlf h hc
      subst e
      exact hl (List.mem_cons_self _ _)
    · exact ih (fun hr => hl (List.mem_cons_of_mem _ hr)) h

/-- The reply-to value `safeEmail` contains no CR and no LF. -/
theorem safeEmailOf_no_crlf (b : RawBody) (c : Char)
    (hc : c = '\r' ∨ c = '\n') : c ∉ (safeEmailOf b).data :=
  stripCRLF_no_crlf (emailOf b) c hc

/-- The embedded name value `safeName` contains no CR and no LF. -/
theorem safeNameOf_no_crlf (b : RawBody) (c : Char)
    (hc : c = '\r' ∨ c = '\n') : c ∉ (safeNameOf b).data :=
  escL_no_crlf hc (stripCRLF_no_crlf (sanitize b.name 120) c hc)

set_option maxRecDepth 8000 in
example :
    handler cfgOK goodReq =
      .json 200 true none (some
        { fromAddr := "form@example.com"
          toAddr := "dest@example.com"
          subject := "Заявка с сайта Lertisento — Jo"
          text := "Новая заявка с сайта Lertisento\n\nИмя: Jo\nEmail: jo@example.com\nIP: 1.2.3.4\n\nСообщение:\nHello there, need a quote\n"
          html := htmlOf goodBody "1.2.3.4"
          replyTo := "jo@example.com"
          headers := [("X-Form-Name", "Lertisento Contact"),
                      ("X-Message-Type", "lead")] }) := by decide

/-!  Reduction helpers for the handler. -/

/-- On a POST request with `MAIL_TO` configured, a body within the
64 KiB limit and a successfully parsed JSON object, the handler is
exactly `processBody`. -/
theorem handler_post_ok (cfg : Config) (req : Request) (b : RawBody)
    (hm : req.method = "POST") (hcfg : truthy cfg.mailTo = true)
    (hlen : req.bodyLen ≤ 64 * 1024) (hb : req.body = .ok b) :
    handler cfg req = processBody cfg b req.ip := by
  have hlen' : ¬ req.bodyLen > 64 * 1024 := by omega
  unfold handler
  rw [hm, hb, hcfg]
  simp [hlen']

/-- Same reduction for the empty raw body, which parses to `{}`. -/
theorem handler_post_emptyRaw (cfg : Config) (req : Request)
    (hm : req.method = "POST") (hcfg : truthy cfg.mailTo = true)
    (hlen : req.bodyLen ≤ 64 * 1024) (hb : req.body = .emptyRaw) :
    handler cfg req = processBody cfg RawBody.emptyObj req.ip := by
  have hlen' : ¬ req.bodyLen > 64 * 1024 := by omega
  unfold handler
  rw [hm, hb, hcfg]
  simp [hlen']

/-- Whenever `processBody` hands a message to the Mail Dispatcher, that
message is the `sendMail` record built from its body: in particular its
`replyTo` is `safeEmail` and its subject is the fixed title followed by
`safeName`. -/
theorem processBody_sent_shape (cfg : Config) (b : RawBody) (ip : String)
    (st : Nat) (ok : Bool) (e : Option String) (m : MailMsg)
    (h : processBody cfg b ip = .json st ok e (some m)) :
    m.replyTo = safeEmailOf b ∧ m.subject = subjectOf b := by
  unfold processBody at h
  split at h
  · simp at h
  split at h
  · simp at h
  split at h
  · simp at h
  split at h
  · simp at h
  split at h
  · simp at h
  split at h
  · simp at h
  · simp only [HOut.json.injEq, Option.some.injEq] at h
    obtain ⟨-, -, -, rfl⟩ := h
    exact ⟨rfl, rfl⟩

/-- Whenever the handler hands a message to the Mail Dispatcher, that
message has the `sendMail` shape for the parsed body. -/
theorem handler_sent_shape (cfg : Config) (req : Request)
    (st : Nat) (ok : Bool) (e : Option String) (m : MailMsg)
    (h : handler cfg req = .json st ok e (some m)) :
    ∃ b : RawBody, m.replyTo = safeEmailOf b ∧ m.subject = subjectOf b := by
  unfold handler at h
  split at h
  · simp at h
  split at h
  · simp at h
  split at h
  · simp at h
  split at h
  · simp at h
  split at h
  · simp at h
  · exact ⟨RawBody.emptyObj, processBody_sent_shape _ _ _ _ _ _ _ h⟩
  · exact ⟨_, processBody_sent_shape _ _ _ _ _ _ _ h⟩

/-- The message thrown by `createTransporter` is always one of the
three SMTP configuration messages. -/
theorem createTransporterError_cases (cfg : Config) (m : String)
    (h : createTransporterError cfg = some m) :
    m = "SMTP_HOST is not configured" ∨ m = "SMTP_USER is not configured" ∨
      m = "SMTP_PASS is not configured" := by
  unfold createTransporterError at h
  split at h
  · exact Or.inl (Option.some.injEq .. ▸ h).symm
  split at h
  · exact Or.inr (Or.inl (Option.some.injEq .. ▸ h).symm)
  split at h
  · exact Or.inr (Or.inr (Option.some.injEq .. ▸ h).symm)
  · cases h

/-- C1: for every RawSubmission whose `company` field is non-empty
after sanitization, the handler returns the same success outcome as a
genuine submission (HTTP 200, body ok = true, no error) and the Mail
Dispatcher send is never invoked (`sent = none`).  Context hypotheses:
a POST request within the 64 KiB limit whose body parsed, with
`MAIL_TO` configured (the handler checks `MAIL_TO` before the
honeypot). -/
theorem honeypot_silent_success (cfg : Config) (req : Request) (b : RawBody)
    (hm : req.method = "POST") (hcfg : truthy cfg.mailTo = true)
    (hlen : req.bodyLen ≤ 64 * 1024) (hb : req.body = .ok b)
    (hhoney : sanitize b.company 200 ≠ "") :
    handler cfg req = .json 200 true none none := by
  rw [handler_post_ok cfg req b hm hcfg hlen hb]
  unfold processBody
  rw [if_pos hhoney]

/-- A spam submission: the honeypot field is filled. -/
def honeyBody : RawBody := { goodBody with company := .str "Acme bot" }

theorem honeypot_silent_success_witness :
    handler cfgOK { goodReq with body := .ok honeyBody } =
      .json 200 true none none :=
  honeypot_silent_success cfgOK { goodReq with body := .ok honeyBody }
    honeyBody rfl (by decide) (by decide) rfl (by decide)

/-- C2: for every input on which the Mail Dispatcher is invoked, the
email value used as the outbound message's reply-to address contains
no carriage-return and no line-feed characters (it is `safeEmail`, the
CRLF-stripped sanitized email). -/
theorem dispatched_replyTo_no_crlf (cfg : Config) (req : Request)
    (st : Nat) (ok : Bool) (e : Option String) (m : MailMsg)
    (h : handler cfg req = .json st ok e (some m)) :
    '\r' ∉ m.replyTo.data ∧ '\n' ∉ m.replyTo.data := by
  obtain ⟨b, hr, -⟩ := handler_sent_shape cfg req st ok e m h
  rw [hr]
  exact ⟨safeEmailOf_no_crlf b _ (Or.inl rfl), safeEmailOf_no_crlf b _ (Or.inr rfl)⟩

/-- The message the handler dispatches for `goodBody`. -/
def sentMsg : MailMsg :=
  { fromAddr := "form@example.com"
    toAddr := "dest@example.com"
    subject := "Заявка с сайта Lertisento — Jo"
    text := textOf goodBody "1.2.3.4"
    html := htmlOf goodBody "1.2.3.4"
    replyTo := "jo@example.com"
    headers := [("X-Form-Name", "Lertisento Contact"),
                ("X-Message-Type", "lead")] }

set_option maxRecDepth 8000 in
theorem dispatched_replyTo_no_crlf_witness :
    '\r' ∉ sentMsg.replyTo.data ∧ '\n' ∉ sentMsg.replyTo.data :=
  dispatched_replyTo_no_crlf cfgOK goodReq 200 true none sentMsg (by decide)

/-- The subject string decomposes into the fixed title and `safeName`. -/
theorem subjectOf_data (b : RawBody) :
    (subjectOf b).data =
      "Заявка с сайта Lertisento — ".data ++ (safeNameOf b).data := rfl

/-- C3: the name value embedded in every dispatched message — the
value `safeName` interpolated into the subject, text and html — is
free of carriage-return and line-feed characters, and consequently so
is the dispatched subject header itself. -/
theorem dispatched_name_subject_no_crlf (cfg : Config) (req : Request)
    (st : Nat) (ok : Bool) (e : Option String) (m : MailMsg)
    (h : handler cfg req = .json st ok e (some m)) :
    (∀ b : RawBody, '\r' ∉ (safeNameOf b).data ∧ '\n' ∉ (safeNameOf b).data) ∧
    '\r' ∉ m.subject.data ∧ '\n' ∉ m.subject.data := by
  obtain ⟨b, -, hs⟩ := handler_sent_shape cfg req st ok e m h
  refine ⟨fun b' =>
    ⟨safeNameOf_no_crlf b' _ (Or.inl rfl), safeNameOf_no_crlf b' _ (Or.inr rfl)⟩,
    ?_, ?_⟩
  · rw [hs, subjectOf_data]
    intro hmem
    rcases List.mem_append.mp hmem with hmem | hmem
    · exact absurd hmem (by decide)
    · exact safeNameOf_no_crlf b _ (Or.inl rfl) hmem
  · rw [hs, subjectOf_data]
    intro hmem
    rcases List.mem_append.mp hmem with hmem | hmem
    · exact absurd hmem (by decide)
    · exact safeNameOf_no_crlf b _ (Or.inr rfl) hmem

set_option maxRecDepth 8000 in
theorem dispatched_name_subject_no_crlf_witness :
    (∀ b : RawBody,
      '\r' ∉ (safeNameOf b).data ∧ '\n' ∉ (safeNameOf b).data) ∧
    '\r' ∉ sentMsg.subject.data ∧ '\n' ∉ sentMsg.subject.data :=
  dispatched_name_subject_no_crlf cfgOK goodReq 200 true none sentMsg (by decide)

/-- C9: every POST request whose body exceeds 64 KiB is answered with
status 413 and the Mail Dispatcher is never invoked; the outcome does
not depend on the parse result (`req.body` is arbitrary), reflecting
that the streaming size check fires before JSON parsing.  Needs
`MAIL_TO` configured, since that `requireField` runs before the body
is read. -/
theorem oversized_body_413 (cfg : Config) (req : Request)
    (hm : req.method = "POST") (hcfg : truthy cfg.mailTo = true)
    (hlen : req.bodyLen > 64 * 1024) :
    handler cfg req = .json 413 false (some "Payload too large") none := by
  unfold handler
  rw [hm, hcfg]
  simp [hlen]

theorem oversized_body_413_witness :
    handler cfgOK { goodReq with bodyLen := 70000, body := .malformed } =
      .json 413 false (some "Payload too large") none :=
  oversized_body_413 cfgOK _ rfl (by decide) (by decide)

/-- C10: a POST request with an empty body is not treated as malformed
input: it parses to `{}`, the honeypot passes (empty company), every
field normalizes to the empty string, and the request fails with
"Name is required" and status 400. -/
theorem empty_body_name_required (cfg : Config) (req : Request)
    (hm : req.method = "POST") (hcfg : truthy cfg.mailTo = true)
    (hlen : req.bodyLen = 0) (hb : req.body = .emptyRaw) :
    handler cfg req = .json 400 false (some "Name is required") none := by
  rw [handler_post_emptyRaw cfg req hm hcfg (by omega) hb]
  rfl

theorem empty_body_name_required_witness :
    handler cfgOK { method := "POST", bodyLen := 0, body := .emptyRaw, ip := "unknown" } =
      .json 400 false (some "Name is required") none :=
  empty_body_name_required cfgOK _ rfl (by decide) rfl rfl

/-- The first failing validation rule in the fixed source order (name,
email, message, gdpr) together with its `requireField` message; `none`
when all four rules pass. -/
def firstValidationError (b : RawBody) : Option String :=
  if (sanitize b.name 120).length < 2 then some "Name is required"
  else if !isEmailStr (emailOf b) then some "Valid email is required"
  else if (sanitize b.message 4000).length < 10 then some "Message is too short"
  else if b.gdpr ≠ JsVal.bool true then some "GDPR consent is required"
  else none

/-- C4: the four validation rules are checked in the fixed order name,
email, message, gdpr; the first failing rule determines the single
reported error message, the response is a 400 client error, and no
other errors are aggregated.  Context hypotheses: a POST request
within the size limit, parsed body, `MAIL_TO` configured, honeypot
empty. -/
theorem validation_first_failure_determines_error (cfg : Config)
    (req : Request) (b : RawBody) (msg : String)
    (hm : req.method = "POST") (hcfg : truthy cfg.mailTo = true)
    (hlen : req.bodyLen ≤ 64 * 1024) (hb : req.body = .ok b)
    (hhoney : sanitize b.company 200 = "")
    (hfail : firstValidationError b = some msg) :
    handler cfg req = .json 400 false (some msg) none := by
  rw [handler_post_ok cfg req b hm hcfg hlen hb]
  unfold processBody
  rw [if_neg (by simp [hhoney])]
  by_cases h1 : (sanitize b.name 120).length < 2
  · rw [if_pos h1]
    simp only [firstValidationError, if_pos h1, Option.some.injEq] at hfail
    rw [hfail]
  rw [if_neg h1]
  by_cases h2 : (!isEmailStr (emailOf b)) = true
  · rw [if_pos h2]
    simp only [firstValidationError, if_neg h1, if_pos h2,
      Option.some.injEq] at hfail
    rw [hfail]
  rw [if_neg h2]
  by_cases h3 : (sanitize b.message 4000).length < 10
  · rw [if_pos h3]
    simp only [firstValidationError, if_neg h1, if_neg h2, if_pos h3,
      Option.some.injEq] at hfail
    rw [hfail]
  rw [if_neg h3]
  by_cases h4 : b.gdpr ≠ JsVal.bool true
  · rw [if_pos h4]
    simp only [firstValidationError, if_neg h1, if_neg h2, if_neg h3,
      if_pos h4, Option.some.injEq] at hfail
    rw [hfail]
  · simp only [firstValidationError, if_neg h1, if_neg h2, if_neg h3,
      if_neg h4] at hfail
    cases hfail

/-- A submission failing several rules at once: short name, invalid
email, short message, no consent. -/
def multiFailBody : RawBody :=
  { company := .str ""
    name := .str "x"
    email := .str "bad"
    phone := .undef
    message := .str "short"
    gdpr := .bool false }

theorem validation_first_failure_determines_error_witness :
    handler cfgOK { goodReq with body := .ok multiFailBody } =
      .json 400 false (some "Name is required") none :=
  validation_first_failure_determines_error cfgOK _ multiFailBody
    "Name is required" rfl (by decide) (by decide) rfl (by decide) (by decide)

/-- C7: with all other fields passing their checks, a message of
exactly 9 characters after sanitization fails with "Message is too
short", while one of exactly 10 characters passes the message-length
check (whatever the handler then returns, its error is never the
message-length error). -/
theorem message_length_boundary (cfg : Config) (req : Request) (b : RawBody)
    (hm : req.method = "POST") (hcfg : truthy cfg.mailTo = true)
    (hlen : req.bodyLen ≤ 64 * 1024) (hb : req.body = .ok b)
    (hhoney : sanitize b.company 200 = "")
    (hname : ¬ (sanitize b.name 120).length < 2)
    (hemail : (!isEmailStr (emailOf b)) = false) :
    ((sanitize b.message 4000).length = 9 →
      handler cfg req = .json 400 false (some "Message is too short") none) ∧
    ((sanitize b.message 4000).length = 10 →
      ∀ st ok e s, handler cfg req = .json st ok e s →
        e ≠ some "Message is too short") := by
  constructor
  · intro h9
    rw [handler_post_ok cfg req b hm hcfg hlen hb]
    unfold processBody
    rw [if_neg (by simp [hhoney]), if_neg hname, if_neg (by simp [hemail]),
      if_pos (by omega)]
  · intro h10 st ok e s h
    rw [handler_post_ok cfg req b hm hcfg hlen hb] at h
    unfold processBody at h
    rw [if_neg (by simp [hhoney]), if_neg hname, if_neg (by simp [hemail]),
      if_neg (by omega)] at h
    split at h
    · simp only [HOut.json.injEq] at h
      obtain ⟨-, -, he, -⟩ := h
      rw [← he]; decide
    split at h
    · rename_i m hme
      simp only [HOut.json.injEq] at h
      obtain ⟨-, -, he, -⟩ := h
      rw [← he]
      rcases createTransporterError_cases cfg m hme with rfl | rfl | rfl <;> decide
    · simp only [HOut.json.injEq] at h
      obtain ⟨-, -, he, -⟩ := h
      rw [← he]; decide

/-- A valid submission whose message is exactly 9 characters long. -/
def nineCharBody : RawBody := { goodBody with message := .str "123456789" }

/-- A valid submission whose message is exactly 10 characters long. -/
def tenCharBody : RawBody := { goodBody with message := .str "1234567890" }

theorem message_length_boundary_witness :
    handler cfgOK { goodReq with body := .ok nineCharBody } =
      .json 400 false (some "Message is too short") none ∧
    ((sanitize tenCharBody.message 4000).length = 10 →
      ∀ st ok e s,
        handler cfgOK { goodReq with body := .ok tenCharBody } = .json st ok e s →
          e ≠ some "Message is too short") :=
  ⟨(message_length_boundary cfgOK { goodReq with body := .ok nineCharBody }
      nineCharBody rfl (by decide) (by decide) rfl (by decide) (by decide)
      (by decide)).1 (by decide),
   (message_length_boundary cfgOK { goodReq with body := .ok tenCharBody }
      tenCharBody rfl (by decide) (by decide) rfl (by decide) (by decide)
      (by decide)).2⟩

/-- C8: the `gdpr` field counts as consent only when it is strictly the
boolean value `true`: every other value — including the string "true",
the number 1, `null` or a missing field — fails validation with "GDPR
consent is required"; with strict `true` that error can never be
returned.  Context hypotheses: POST within the size limit, parsed
body, `MAIL_TO` configured, honeypot empty, and the name, email and
message rules passing. -/
theorem gdpr_strict_boolean_true (cfg : Config) (req : Request) (b : RawBody)
    (hm : req.method = "POST") (hcfg : truthy cfg.mailTo = true)
    (hlen : req.bodyLen ≤ 64 * 1024) (hb : req.body = .ok b)
    (hhoney : sanitize b.company 200 = "")
    (hname : ¬ (sanitize b.name 120).length < 2)
    (hemail : (!isEmailStr (emailOf b)) = false)
    (hmsg : ¬ (sanitize b.message 4000).length < 10) :
    (b.gdpr ≠ JsVal.bool true →
      handler cfg req = .json 400 false (some "GDPR consent is required") none) ∧
    (b.gdpr = JsVal.bool true →
      ∀ st ok e s, handler cfg req = .json st ok e s →
        e ≠ some "GDPR consent is required") := by
  constructor
  · intro hg
    rw [handler_post_ok cfg req b hm hcfg hlen hb]
    unfold processBody
    rw [if_neg (by simp [hhoney]), if_neg hname, if_neg (by simp [hemail]),
      if_neg hmsg, if_pos hg]
  · intro hg st ok e s h
    rw [handler_post_ok cfg req b hm hcfg hlen hb] at h
    unfold processBody at h
    rw [if_neg (by simp [hhoney]), if_neg hname, if_neg (by simp [hemail]),
      if_neg hmsg, if_neg (by simp [hg])] at h
    split at h
    · rename_i m hme
      simp only [HOut.json.injEq] at h
      obtain ⟨-, -, he, -⟩ := h
      rw [← he]
      rcases createTransporterError_cases cfg m hme with rfl | rfl | rfl <;> decide
    · simp only [HOut.json.injEq] at h
      obtain ⟨-, -, he, -⟩ := h
      rw [← he]; decide

/-- A submission whose `gdpr` field is the string "true", not the
boolean. -/
def stringTrueBody : RawBody := { goodBody with gdpr := .str "true" }

theorem gdpr_strict_boolean_true_witness :
    handler cfgOK { goodReq with body := .ok stringTrueBody } =
      .json 400 false (some "GDPR consent is required") none :=
  (gdpr_strict_boolean_true cfgOK { goodReq with body := .ok stringTrueBody }
      stringTrueBody rfl (by decide) (by decide) rfl (by decide) (by decide)
      (by decide) (by decide)).1 (by decide)

set_option maxRecDepth 8000 in
/-- C5 (bug evidence): the claim says that absent outbound-mail
configuration yields a 500 server error with the generic "Server
error" body, hiding which value is missing.  The code instead raises
the configuration failures through `requireField`, which tags every
error with `statusCode = 400`, so the caller receives a 400 client
error whose body names the missing variable — both for `MAIL_TO` and
for the SMTP credentials. -/
theorem missing_config_gives_400_with_detail :
    handler { cfgOK with mailTo := none } goodReq =
      .json 400 false (some "MAIL_TO is not configured") none ∧
    handler { cfgOK with smtpHost := none } goodReq =
      .json 400 false (some "SMTP_HOST is not configured") none ∧
    handler { cfgOK with smtpPass := some "" } goodReq =
      .json 400 false (some "SMTP_PASS is not configured") none := by
  refine ⟨by decide, by decide, by decide⟩

/-!  Idempotence analysis of `sanitize`. -/

/-- C6 (counterexample): `sanitize` is not idempotent on its own
output.  Truncation at the bound can cut just after an interior space
— `sanitize("a b", 2)` is `"a "` — and the second pass trims that
trailing space away, giving `"a"`. -/
theorem sanitize_not_idempotent :
    sanitizeStr "a b" 2 = "a " ∧
    sanitizeStr (sanitizeStr "a b" 2) 2 = "a" ∧
    sanitizeStr (sanitizeStr "a b" 2) 2 ≠ sanitizeStr "a b" 2 :=
  ⟨by decide, by decide, by decide⟩

/-- CRLF replacement leaves a CR-free list unchanged. -/
theorem replCRLF_eq_self {l : List Char} (h : '\r' ∉ l) : replCRLF l = l := by
  induction l with
  | nil => rfl
  | cons c rest ih =>
    cases rest with
    | nil => rfl
    | cons d rest2 =>
      have hc : ¬ c = '\r' := fun e => h (e ▸ List.mem_cons_self c _)
      show (if (c = '\r' && d = '\n') = true then _ else
        c :: replCRLF (d :: rest2)) = _
      rw [if_neg (by simp [hc]),
        ih (fun hm => h (List.mem_cons_of_mem _ hm))]

/-- CR-to-LF mapping leaves a CR-free list unchanged. -/
theorem map_crToLf_eq_self {l : List Char} (h : '\r' ∉ l) :
    l.map crToLf = l := by
  have h1 : ∀ a ∈ l, crToLf a = id a := by
    intro a ha
    have : ¬ a = '\r' := fun e => h (e ▸ ha)
    simp [crToLf, this]
  rw [List.map_congr_left h1, List.map_id]

/-- The normalized list contains no CR. -/
theorem normNL_no_cr (l : List Char) : '\r' ∉ normNL l := by
  intro hm
  rcases List.mem_map.mp hm with ⟨a, -, ha⟩
  by_cases hr : a = '\r' <;> simp [crToLf, hr] at ha

/-- Normalization is the identity on CR-free lists. -/
theorem normNL_eq_self {l : List Char} (h : '\r' ∉ l) : normNL l = l := by
  unfold normNL
  rw [replCRLF_eq_self h, map_crToLf_eq_self h]

/-- The tail-trimming half of `trim` is Mathlib's `rdropWhile`. -/
theorem dropTrail_eq_rdropWhile (l : List Char) :
    dropTrail l = List.rdropWhile isWS l := rfl

/-- A list on which `dropWhile` is the identity keeps that property
under truncation: the head, if any, is unchanged by `take`. -/
theorem dropWhile_take_eq {p : Char → Bool} {l : List Char}
    (h : List.dropWhile p l = l) (n : Nat) :
    List.dropWhile p (l.take n) = l.take n := by
  cases l with
  | nil => simp
  | cons c rest =>
    cases n with
    | zero => simp
    | succ m =>
      have hc : p c = false := by
        by_contra hcc
        rw [Bool.not_eq_false] at hcc
        rw [List.dropWhile_cons, if_pos hcc] at h
        have hle : (List.dropWhile p rest).length ≤ rest.length :=
          (List.dropWhile_suffix p).sublist.length_le
        have hlen := congrArg List.length h
        simp at hlen
        omega
      simp [List.take_succ_cons, List.dropWhile_cons, hc]

/-- A trimmed list has no leading whitespace left to drop. -/
theorem dropLead_trimJS (x : List Char) : dropLead (trimJS x) = trimJS x := by
  obtain ⟨t, ht⟩ := List.rdropWhile_prefix isWS (dropLead x)
  have h2 : trimJS x ++ t = dropLead x := ht
  have hw : trimJS x = (dropLead x).take (trimJS x).length := by
    rw [← h2, List.take_left]
  rw [hw]
  exact dropWhile_take_eq (List.dropWhile_idempotent isWS x) _

/-- Dropping leading whitespace does nothing to a truncated trimmed
list either. -/
theorem dropLead_take_trimJS (x : List Char) (n : Nat) :
    dropLead ((trimJS x).take n) = (trimJS x).take n :=
  dropWhile_take_eq (dropLead_trimJS x) n

/-- Dropping trailing whitespace does nothing to a list whose last
character is not whitespace. -/
theorem dropTrail_eq_self_of_getLast (u : List Char)
    (h : ∀ c, u.getLast? = some c → isWS c = false) : dropTrail u = u := by
  rw [dropTrail_eq_rdropWhile]
  apply List.rdropWhile_eq_self_iff.mpr
  intro hu
  have := h (u.getLast hu) (List.getLast?_eq_getLast_of_ne_nil hu)
  simp [this]

/-- Core idempotence: a second `sanitize` pass is the identity provided
the first pass's output does not end in a whitespace character. -/
theorem sanitizeL_idem (x : List Char) (n : Nat)
    (h : ∀ c, (sanitizeL x n).getLast? = some c → isWS c = false) :
    sanitizeL (sanitizeL x n) n = sanitizeL x n := by
  have hnoCR : '\r' ∉ sanitizeL x n := fun hm =>
    normNL_no_cr x (mem_of_mem_trimJS (List.take_subset n _ hm))
  show (trimJS (normNL (sanitizeL x n))).take n = sanitizeL x n
  rw [normNL_eq_self hnoCR]
  have h1 : dropLead (sanitizeL x n) = sanitizeL x n :=
    dropLead_take_trimJS (normNL x) n
  have h2 : dropTrail (sanitizeL x n) = sanitizeL x n :=
    dropTrail_eq_self_of_getLast _ h
  show (dropTrail (dropLead (sanitizeL x n))).take n = sanitizeL x n
  rw [h1, h2]
  show ((trimJS (normNL x)).take n).take n = (trimJS (normNL x)).take n
  rw [List.take_take]
  simp

/-- C6 (amended): sanitizing an already-sanitized value a second time
yields the same value whenever the first output does not end in a
whitespace character — in particular whenever no truncation occurred;
truncation at the bound can expose trailing whitespace, which the
second pass trims (see the counterexample). -/
theorem sanitize_idem_unless_trailing_ws (v : String) (n : Nat)
    (h : ∀ c, (sanitizeStr v n).data.getLast? = some c → isWS c = false) :
    sanitizeStr (sanitizeStr v n) n = sanitizeStr v n := by
  have hl : sanitizeL (sanitizeL v.data n) n = sanitizeL v.data n :=
    sanitizeL_idem v.data n h
  exact congrArg String.mk hl

theorem sanitize_idem_unless_trailing_ws_witness :
    sanitizeStr (sanitizeStr "ab" 2) 2 = sanitizeStr "ab" 2 :=
  sanitize_idem_unless_trailing_ws "ab" 2 (fun c hc => by
    have e : 'b' = c := Option.some.inj hc
    exact e ▸ (by decide))
